import Mathlib

set_option maxRecDepth 4000

/-!
Verification development for the matrix-bot-calendar repository.

The Rust sources under `src/` are shallowly embedded here:
* `cal.rs` — the XML tree walk (`find_elems`) and the CalDAV payload
  extraction (`extract_calendar_data`);
* `event.rs` — the `EventTime` / `Event` data model and its orderings;
* `parser.rs` — the iCal payload parser `parse` and its helpers;
* `main.rs` — the digest formatter (`format_datetime`, `format_event_times`).

External crates (minidom, ical, chrono) are modelled: XML documents become
the inductive `XElem`, the ical item stream becomes a list of
`Except String IcalCalendar`, and chrono's fixed-format parsing and calendar
arithmetic are implemented over an explicit `NaiveDate`/`NaiveDateTime`
representation (seconds granularity; leap seconds out of scope).
-/

/-! ## XML model (minidom `Element`) -/

/-- An XML element: local name, namespace, own text content, child elements.
Models minidom's `Element` as used by `cal.rs` (attributes are never
inspected by the code, so they are omitted). -/
inductive XElem : Type where
  | node : String → String → String → List XElem → XElem

def XElem.name : XElem → String
  | .node n _ _ _ => n

def XElem.ns : XElem → String
  | .node _ n _ _ => n

def XElem.text : XElem → String
  | .node _ _ t _ => t

def XElem.children : XElem → List XElem
  | .node _ _ _ c => c

mutual

/-- Embedding of `find_elems` (cal.rs): walks the children of `root` and
returns every element whose name matches; a matching element is collected
and its own subtree is not entered, a non-matching element is recursed
into. Depth-first, document order. -/
def find_elems (searched : String) : XElem → List XElem
  | .node _ _ _ cs => findElemsList searched cs

def findElemsList (searched : String) : List XElem → List XElem
  | [] => []
  | el :: rest =>
      (if el.name = searched then [el] else find_elems searched el) ++ findElemsList searched rest

end

/-- Inner loop of `extract_calendar_data` (cal.rs): the `calendar-data`
children (caldav namespace) of one `prop` element, direct children only. -/
def calendarDataOfProp (prop : XElem) : List String :=
  prop.children.filterMap fun cd =>
    if cd.name = "calendar-data" ∧ cd.ns = "urn:ietf:params:xml:ns:caldav" then some cd.text
    else none

/-- Middle loop of `extract_calendar_data`: the `prop` (DAV:) direct
children of one `propstat` element. -/
def propsOfPropstat (propstat : XElem) : List String :=
  propstat.children.flatMap fun prop =>
    if prop.name = "prop" ∧ prop.ns = "DAV:" then calendarDataOfProp prop else []

/-- Outer-inner loop of `extract_calendar_data`: the `propstat` (DAV:)
direct children of one `response` element. -/
def propstatsOfResponse (response : XElem) : List String :=
  response.children.flatMap fun propstat =>
    if propstat.name = "propstat" ∧ propstat.ns = "DAV:" then propsOfPropstat propstat else []

/-- Embedding of `extract_calendar_data` (cal.rs): for each element of the
input vector that is a `response` in the `DAV:` namespace, walk its direct
children `propstat → prop → calendar-data` and collect each matching
`calendar-data` element's text. -/
def extract_calendar_data (root : List XElem) : List String :=
  root.flatMap fun response =>
    if response.name = "response" ∧ response.ns = "DAV:" then propstatsOfResponse response
    else []

/-- The extraction pipeline of `get_calendar_events` (cal.rs):
`sub_request_and_extract_elems` collects `find_elems root "response"` and
`extract_calendar_data` is applied to the result. -/
def extractPipeline (root : XElem) : List String :=
  extract_calendar_data (find_elems "response" root)

mutual

/-- Modelled from the claim's words (not from the source): collect the text
of every `calendar-data` element (caldav namespace) that lies under an
ancestor chain `response → propstat → prop` (DAV: namespace) at any
nesting depth, depth-first, document order. `seen` counts how many levels
of the chain have already been matched by ancestors. -/
def specCalDataWalk (seen : Nat) : XElem → List String
  | .node nm nsp tx cs =>
      let seen2 : Nat :=
        if seen = 0 ∧ nm = "response" ∧ nsp = "DAV:" then 1
        else if seen = 1 ∧ nm = "propstat" ∧ nsp = "DAV:" then 2
        else if seen = 2 ∧ nm = "prop" ∧ nsp = "DAV:" then 3
        else seen
      (if seen = 3 ∧ nm = "calendar-data" ∧ nsp = "urn:ietf:params:xml:ns:caldav" then [tx]
       else []) ++ specCalDataWalkList seen2 cs

def specCalDataWalkList (seen : Nat) : List XElem → List String
  | [] => []
  | el :: rest => specCalDataWalk seen el ++ specCalDataWalkList seen rest

end

/-- The collection the claim describes: chain members matched at any depth,
starting below the document root. -/
def specCalendarDataAnyDepth (root : XElem) : List String :=
  specCalDataWalkList 0 root.children

mutual

/-- The amended description of the pipeline: locate elements named
`response` at any depth (without descending into them); for each one in the
`DAV:` namespace collect the `calendar-data` text through the
direct-children-only chain `propstat → prop → calendar-data`. -/
def amendedWalk : XElem → List String
  | .node _ _ _ cs => amendedWalkList cs

def amendedWalkList : List XElem → List String
  | [] => []
  | el :: rest =>
      (if el.name = "response" then
         (if el.ns = "DAV:" then propstatsOfResponse el else [])
       else amendedWalk el) ++ amendedWalkList rest

end

/-- Concrete document: a `calendar-data` element one wrapper deeper than a
direct child of its `prop` ancestor. -/
def exTreeC1 : XElem :=
  .node "multistatus" "DAV:" ""
    [ .node "response" "DAV:" ""
        [ .node "propstat" "DAV:" ""
            [ .node "prop" "DAV:" ""
                [ .node "wrapper" "DAV:" ""
                    [ .node "calendar-data" "urn:ietf:params:xml:ns:caldav" "X" [] ] ] ] ] ]

/-! ## Time model (chrono `NaiveDate`, `NaiveDateTime`, `DateTime<Utc>`) -/

/-- A chrono `NaiveDate`, kept as calendar year/month/day. -/
structure NaiveDate where
  year : Int
  month : Nat
  day : Nat
deriving DecidableEq

/-- A chrono `NaiveDateTime` (seconds granularity): a date plus the
second-of-day. A `DateTime<Utc>` carries a zero offset, so it is modelled
by its naive UTC representation directly (`naive_utc` is the identity
here) and compares by the same order. -/
structure NaiveDateTime where
  date : NaiveDate
  secs : Nat
deriving DecidableEq

/-- Three-way comparison on `Int` (chrono derives `Ord` structurally). -/
def cmpInt (a b : Int) : Ordering :=
  if a < b then .lt else if a = b then .eq else .gt

/-- Three-way comparison on `Nat`. -/
def cmpNat (a b : Nat) : Ordering :=
  if a < b then .lt else if a = b then .eq else .gt

/-- chrono's `Ord` on `NaiveDate`: chronological, i.e. lexicographic on
(year, month, day) for valid dates. -/
def NaiveDate.cmp (a b : NaiveDate) : Ordering :=
  (cmpInt a.year b.year).then ((cmpNat a.month b.month).then (cmpNat a.day b.day))

/-- chrono's `Ord` on `NaiveDateTime`: date first, then time of day. -/
def NaiveDateTime.cmp (a b : NaiveDateTime) : Ordering :=
  (NaiveDate.cmp a.date b.date).then (cmpNat a.secs b.secs)

/-- chrono's `NaiveDate::and_hms_opt`: succeeds exactly when the
hour/minute/second are in range (leap seconds out of scope), yielding the
datetime at that time of day. -/
def NaiveDate.and_hms_opt (d : NaiveDate) (h m s : Nat) : Option NaiveDateTime :=
  if h ≤ 23 ∧ m ≤ 59 ∧ s ≤ 59 then some ⟨d, h * 3600 + m * 60 + s⟩ else none

/-! ## EventTime / Event (event.rs) -/

/-- `EventTime` (event.rs): an all-day calendar date or a UTC instant. -/
inductive EventTime : Type where
  | date : NaiveDate → EventTime
  | dateTime : NaiveDateTime → EventTime
deriving DecidableEq

/-- `EventTime::as_date` (event.rs). -/
def EventTime.as_date : EventTime → Option NaiveDate
  | .date d => some d
  | _ => none

/-- The `Ord for EventTime` implementation (event.rs), parameterized by the
normalization `norm` that the source instantiates with chrono's
`and_hms_opt(0, 0, 0)`. The parameterization keeps the source's defensive
`None` branches in the embedding even though the library call cannot fail
at midnight. Structure mirrors the four-case `match` of `cmp`. -/
def EventTime.cmpWith (norm : NaiveDate → Option NaiveDateTime) : EventTime → EventTime → Ordering
  | .date d1, .date d2 => NaiveDate.cmp d1 d2
  | .dateTime t1, .dateTime t2 => NaiveDateTime.cmp t1 t2
  | .date d, .dateTime dt =>
      match norm d with
      | some nd => NaiveDateTime.cmp nd dt
      | none => .lt
  | .dateTime dt, .date d =>
      match norm d with
      | some nd => NaiveDateTime.cmp dt nd
      | none => .gt

/-- `EventTime::cmp` as the source instantiates it: normalization is
`d.and_hms_opt(0, 0, 0)`; a `DateTime` compares by its `naive_utc()`,
which is the identity in this model. -/
def EventTime.cmp : EventTime → EventTime → Ordering :=
  EventTime.cmpWith (fun d => d.and_hms_opt 0 0 0)

/-- `PartialEq for EventTime` (event.rs): equality is `cmp == Equal`. -/
def EventTime.beq (a b : EventTime) : Bool :=
  EventTime.cmp a b == Ordering.eq

/-- `Event` (event.rs). `Url` is kept as its string form. -/
structure Event where
  uid : String
  name : String
  dtstart : EventTime
  dtend : EventTime
  location : Option String
  description : Option String
  last_modified : NaiveDateTime
  creation_date : Option NaiveDateTime
  url : String
deriving DecidableEq

/-- `Event::new_timed` (event.rs): both ends become `DateTime` variants. -/
def Event.new_timed (name uid : String) (dtstart dtend : NaiveDateTime)
    (location description : Option String) (url : String)
    (last_modified : NaiveDateTime) (creation_date : Option NaiveDateTime) : Event :=
  { name := name, uid := uid, dtstart := EventTime.dateTime dtstart,
    dtend := EventTime.dateTime dtend, location := location, description := description,
    last_modified := last_modified, creation_date := creation_date, url := url }

/-- `Event::new_all_day` (event.rs): both ends become `Date` variants. -/
def Event.new_all_day (name uid : String) (dtstart dtend : NaiveDate)
    (location description : Option String) (url : String)
    (last_modified : NaiveDateTime) (creation_date : Option NaiveDateTime) : Event :=
  { name := name, uid := uid, dtstart := EventTime.date dtstart,
    dtend := EventTime.date dtend, location := location, description := description,
    last_modified := last_modified, creation_date := creation_date, url := url }

/-- `Ord for Event` (event.rs): compares the start times only. -/
def Event.cmp (a b : Event) : Ordering :=
  EventTime.cmp a.dtstart b.dtstart

/-- `PartialEq for Event` (event.rs): equality is `uid` equality only. -/
def Event.beq (a b : Event) : Bool :=
  a.uid == b.uid

/-- Both sides of an `Event` use the same `EventTime` variant. -/
def sameVariant : EventTime → EventTime → Bool
  | .date _, .date _ => true
  | .dateTime _, .dateTime _ => true
  | _, _ => false

/-! ## chrono fixed-format parsing (used by parser.rs)

The three formats the source hands to chrono are `%Y%m%dT%H%M%SZ`,
`%Y%m%dT%H%M%S` and `%Y%m%d`. chrono scans each numeric field greedily
(year: optional sign, then 1–4 digits unsigned or unbounded when signed;
month/day/hour/minute/second: 1–2 digits), matches literal characters
exactly, requires the whole input consumed, and then validates the
assembled calendar date and time of day. -/

/-- Take up to `n` leading ASCII digits. -/
def scanDigits : Nat → List Char → (List Char × List Char)
  | 0, s => ([], s)
  | _ + 1, [] => ([], [])
  | n + 1, c :: rest =>
      if c.isDigit then
        let (ds, r) := scanDigits n rest
        (c :: ds, r)
      else ([], c :: rest)

/-- Numeric value of a digit run. -/
def digitsVal (ds : List Char) : Nat :=
  ds.foldl (fun a c => a * 10 + (c.toNat - 48)) 0

/-- chrono's `scan::number`: between `minD` and `maxD` digits, greedy. -/
def scanNumber (minD maxD : Nat) (s : List Char) : Option (Nat × List Char) :=
  let (ds, r) := scanDigits maxD s
  if minD ≤ ds.length then some (digitsVal ds, r) else none

/-- chrono's parsing of `%Y`: optional sign (unbounded digits when signed),
else 1–4 digits. -/
def scanYear (s : List Char) : Option (Int × List Char) :=
  match s with
  | '-' :: rest => (scanNumber 1 rest.length rest).map fun p => (-(p.1 : Int), p.2)
  | '+' :: rest => (scanNumber 1 rest.length rest).map fun p => ((p.1 : Int), p.2)
  | _ => (scanNumber 1 4 s).map fun p => ((p.1 : Int), p.2)

/-- Match one literal character. -/
def expectChar (c : Char) : List Char → Option (List Char)
  | x :: rest => if x = c then some rest else none
  | [] => none

/-- Gregorian leap-year rule (for non-negative years, the only ones the
fixed formats can produce without an explicit sign). -/
def isLeapYear (y : Int) : Bool :=
  (y % 4 == 0 && y % 100 != 0) || y % 400 == 0

/-- Days in a month of a given year. -/
def daysInMonth (y : Int) (m : Nat) : Nat :=
  if m = 2 then (if isLeapYear y then 29 else 28)
  else if m = 4 ∨ m = 6 ∨ m = 9 ∨ m = 11 then 30
  else 31

/-- chrono's `NaiveDate::from_ymd_opt` validity: month and day in range for
the (range-limited) year. -/
def mkValidDate (y : Int) (m d : Nat) : Option NaiveDate :=
  if 1 ≤ m ∧ m ≤ 12 ∧ 1 ≤ d ∧ d ≤ daysInMonth y m ∧ -262144 ≤ y ∧ y ≤ 262143 then
    some ⟨y, m, d⟩
  else none

/-- Time-of-day validity (hour 0–23, minute/second 0–59). -/
def mkValidTime (h mi se : Nat) : Option Nat :=
  if h ≤ 23 ∧ mi ≤ 59 ∧ se ≤ 59 then some (h * 3600 + mi * 60 + se) else none

/-- Scan `%Y%m%d`. -/
def scanYmd (s : List Char) : Option (Int × Nat × Nat × List Char) :=
  (scanYear s).bind fun (y, s1) =>
  (scanNumber 1 2 s1).bind fun (mo, s2) =>
  (scanNumber 1 2 s2).bind fun (da, s3) =>
  some (y, mo, da, s3)

/-- Scan `%H%M%S`. -/
def scanHms (s : List Char) : Option (Nat × Nat × Nat × List Char) :=
  (scanNumber 1 2 s).bind fun (h, s1) =>
  (scanNumber 1 2 s1).bind fun (mi, s2) =>
  (scanNumber 1 2 s2).bind fun (se, s3) =>
  some (h, mi, se, s3)

/-- chrono `Utc.datetime_from_str` with format `%Y%m%dT%H%M%SZ`. -/
def parseFmtZ (s : String) : Option NaiveDateTime :=
  (scanYmd s.toList).bind fun (y, mo, da, s1) =>
  (expectChar 'T' s1).bind fun s2 =>
  (scanHms s2).bind fun (h, mi, se, s3) =>
  (expectChar 'Z' s3).bind fun s4 =>
  if s4 = [] then
    (mkValidDate y mo da).bind fun d => (mkValidTime h mi se).map fun t => NaiveDateTime.mk d t
  else none

/-- chrono `Utc.datetime_from_str` with format `%Y%m%dT%H%M%S` (no zone
designator: the naive result is interpreted as UTC). -/
def parseFmtLocal (s : String) : Option NaiveDateTime :=
  (scanYmd s.toList).bind fun (y, mo, da, s1) =>
  (expectChar 'T' s1).bind fun s2 =>
  (scanHms s2).bind fun (h, mi, se, s3) =>
  if s3 = [] then
    (mkValidDate y mo da).bind fun d => (mkValidTime h mi se).map fun t => NaiveDateTime.mk d t
  else none

/-- chrono `NaiveDate::parse_from_str` with format `%Y%m%d`. -/
def parseFmtDate (s : String) : Option NaiveDate :=
  (scanYmd s.toList).bind fun (y, mo, da, s1) =>
  if s1 = [] then mkValidDate y mo da else none

/-! ## iCal parser (parser.rs)

The external `ical` crate is modelled by its output: the reader becomes a
list of decode results, an `IcalCalendar` holds its events/todos/journals,
and an `IcalEvent` holds its property list. -/

/-- One iCal property: a name and an optional value. -/
structure Property where
  name : String
  value : Option String
deriving DecidableEq

/-- An `IcalEvent`: its property list. -/
structure IcalEvent where
  properties : List Property
deriving DecidableEq

/-- An `IcalCalendar`: top-level component lists. -/
structure IcalCalendar where
  events : List IcalEvent
  todos : List IcalEvent
  journals : List IcalEvent
deriving DecidableEq

/-- `Result::is_ok` on a reader item. -/
def exceptIsOk : Except String IcalCalendar → Bool
  | .ok _ => true
  | .error _ => false

/-- `assert_single_type` (parser.rs): exactly one event and no todos or
journals, else an error. -/
def assert_single_type (item : IcalCalendar) : Except String IcalEvent :=
  match item.events with
  | [ev] =>
      if item.todos.length ≠ 0 ∨ item.journals.length ≠ 0 then
        .error "Only a single TODO or a single EVENT is supported"
      else .ok ev
  | _ => .error "Only a single EVENT is supported"

/-- `parse_date_time` (parser.rs): only the `%Y%m%dT%H%M%SZ` format. -/
def parse_date_time (dt : String) : Option NaiveDateTime :=
  parseFmtZ dt

/-- `parse_date_time_from_property` (parser.rs): absent or unparseable
values become `none` (the warning log is outside the model). -/
def parse_date_time_from_property (value : Option String) : Option NaiveDateTime :=
  value.bind parse_date_time

/-- `parse_event_time` (parser.rs): UTC timestamp, else local timestamp
treated as UTC, else bare date, in that order. -/
def parse_event_time (dt : String) : Option EventTime :=
  match parseFmtZ dt with
  | some datetime => some (.dateTime datetime)
  | none =>
      match parseFmtLocal dt with
      | some datetime => some (.dateTime datetime)
      | none =>
          match parseFmtDate dt with
          | some date => some (.date date)
          | none => none

/-- `parse_event_time_from_property` (parser.rs). -/
def parse_event_time_from_property (value : Option String) : Option EventTime :=
  value.bind parse_event_time

/-- The mutable locals filled by the property scan loop of `parse`. -/
structure Scanned where
  name : Option String := none
  uid : Option String := none
  dtstart : Option EventTime := none
  dtend : Option EventTime := none
  location : Option String := none
  description : Option String := none
  last_modified : Option NaiveDateTime := none
  creation_date : Option NaiveDateTime := none
  extra_parameters : List Property := []
deriving DecidableEq

/-- One iteration of the property loop in `parse` (parser.rs): a later
occurrence of a recognized property overwrites the earlier one; anything
unrecognized is appended to `extra_parameters`. -/
def scanStep (sc : Scanned) (prop : Property) : Scanned :=
  match prop.name with
  | "SUMMARY" => { sc with name := prop.value }
  | "UID" => { sc with uid := prop.value }
  | "DTSTART" => { sc with dtstart := parse_event_time_from_property prop.value }
  | "DTEND" => { sc with dtend := parse_event_time_from_property prop.value }
  | "LOCATION" => { sc with location := prop.value }
  | "DESCRIPTION" => { sc with description := prop.value }
  | "LAST-MODIFIED" => { sc with last_modified := parse_date_time_from_property prop.value }
  | "CREATED" => { sc with creation_date := parse_date_time_from_property prop.value }
  | _ => { sc with extra_parameters := sc.extra_parameters ++ [prop] }

/-- The whole property scan loop of `parse`. -/
def scanProps (props : List Property) : Scanned :=
  props.foldl scanStep {}

/-- The variant dispatch of `parse` (parser.rs lines 64–121): timed pairs
build `new_timed`, mismatches error, date pairs check for inversion via
`as_date` and build `new_all_day`. -/
def buildEvent (name uid : String) (dtstart dtend : EventTime)
    (location description : Option String) (item_url : String)
    (last_modified : NaiveDateTime) (creation_date : Option NaiveDateTime) :
    Except String Event :=
  match dtstart with
  | .dateTime ds =>
      match dtend with
      | .dateTime de =>
          .ok (Event.new_timed name uid ds de location description item_url
                last_modified creation_date)
      | .date _ =>
          .error ("DTEND for item " ++ item_url ++ " is a date, but DTSTART is a datetime")
  | .date _ =>
      match dtend with
      | .dateTime _ =>
          .error ("DTSTART for item " ++ item_url ++ " is a date, but DTEND is a datetime")
      | .date de =>
          match dtstart.as_date with
          | some ds =>
              if NaiveDate.cmp ds de = Ordering.gt then
                .error ("DTSTART for item " ++ item_url ++ " is after DTEND")
              else
                .ok (Event.new_all_day name uid ds de location description item_url
                      last_modified creation_date)
          | none =>
              .error ("DTSTART for item " ++ item_url ++ " is a datetime, but DTEND is a date")

/-- The body of `parse` after `assert_single_type`: scan the properties,
check the mandatory fields in source order, then dispatch on the variants. -/
def parseChecked (event : IcalEvent) (item_url : String) : Except String Event :=
  let sc := scanProps event.properties
  match sc.name with
  | none => .error ("Missing name for item " ++ item_url)
  | some name =>
      match sc.uid with
      | none => .error ("Missing UID for item " ++ item_url)
      | some uid =>
          match sc.dtstart with
          | none => .error ("Missing DTSTART for item " ++ item_url)
          | some dtstart =>
              match sc.dtend with
              | none => .error ("Missing DTEND for item " ++ item_url)
              | some dtend =>
                  match sc.last_modified with
                  | none =>
                      .error ("Missing LAST-MODIFIED for item " ++ item_url ++
                        ", but this is required by RFC5545")
                  | some last_modified =>
                      buildEvent name uid dtstart dtend sc.location sc.description
                        item_url last_modified sc.creation_date

/-- `parse` (parser.rs): the ical reader is modelled by the list of its
decode results. The first item must decode; it must hold exactly one
event; the mandatory fields and variant checks run; and only then, if the
next reader item exists and decodes successfully, everything is rejected
with the multiple-items error. -/
def parse (items : List (Except String IcalCalendar)) (item_url : String) :
    Except String Event :=
  match items with
  | [] => .error ("Invalid iCal data to parse for item " ++ item_url)
  | .error err :: _ =>
      .error ("Unable to parse iCal data for item " ++ item_url ++ ": " ++ err)
  | .ok item :: rest =>
      match assert_single_type item with
      | .error e => .error e
      | .ok event =>
          match parseChecked event item_url with
          | .error e => .error e
          | .ok ev =>
              if (rest.head?.map exceptIsOk) == some true then
                .error "Parsing multiple items are not supported"
              else .ok ev

/-! ## Calendar arithmetic and the digest formatter (main.rs)

chrono's date arithmetic and strftime rendering are modelled over the
year/month/day representation: days-from-civil / civil-from-days give day
subtraction (`end_date - Duration::days(1)`) and the weekday. -/

/-- Day number of a civil date (0 = 1970-01-01), standard civil-calendar
conversion with floor division. -/
def daysFromCivil (date : NaiveDate) : Int :=
  let y : Int := if date.month ≤ 2 then date.year - 1 else date.year
  let era : Int := Int.fdiv y 400
  let yoe : Int := y - era * 400
  let mp : Nat := (date.month + 9) % 12
  let doy : Int := ((153 * mp + 2) / 5 + date.day - 1 : Nat)
  let doe : Int := yoe * 365 + Int.ediv yoe 4 - Int.ediv yoe 100 + doy
  era * 146097 + doe - 719468

/-- Civil date of a day number (inverse of `daysFromCivil`). -/
def civilFromDays (z0 : Int) : NaiveDate :=
  let z : Int := z0 + 719468
  let era : Int := Int.fdiv z 146097
  let doe : Int := z - era * 146097
  let yoe : Int :=
    Int.ediv (doe - Int.ediv doe 1460 + Int.ediv doe 36524 - Int.ediv doe 146096) 365
  let y : Int := yoe + era * 400
  let doy : Int := doe - (365 * yoe + Int.ediv yoe 4 - Int.ediv yoe 100)
  let mp : Int := Int.ediv (5 * doy + 2) 153
  let d : Int := doy - Int.ediv (153 * mp + 2) 5 + 1
  let m : Int := if mp < 10 then mp + 3 else mp - 9
  { year := if m ≤ 2 then y + 1 else y, month := m.toNat, day := d.toNat }

/-- chrono's `date - Duration::days(n)`. -/
def dateSubDays (d : NaiveDate) (n : Int) : NaiveDate :=
  civilFromDays (daysFromCivil d - n)

/-- Weekday index of a date, 0 = Sunday (day 0, 1970-01-01, was a
Thursday). -/
def NaiveDate.weekday (d : NaiveDate) : Nat :=
  ((daysFromCivil d + 4).emod 7).toNat

/-- strftime `%A`. -/
def weekdayName : Nat → String
  | 0 => "Sunday"
  | 1 => "Monday"
  | 2 => "Tuesday"
  | 3 => "Wednesday"
  | 4 => "Thursday"
  | 5 => "Friday"
  | _ => "Saturday"

/-- strftime `%B`. -/
def monthName : Nat → String
  | 1 => "January"
  | 2 => "February"
  | 3 => "March"
  | 4 => "April"
  | 5 => "May"
  | 6 => "June"
  | 7 => "July"
  | 8 => "August"
  | 9 => "September"
  | 10 => "October"
  | 11 => "November"
  | 12 => "December"
  | _ => ""

/-- Zero-pad to two digits. -/
def pad2 (n : Nat) : String :=
  if n < 10 then "0" ++ toString n else toString n

/-- strftime `%A, %-d %B, %C%y` on a date (`%C` = zero-padded century,
`%y` = zero-padded year of century; negative years out of scope). -/
def formatDateLong (d : NaiveDate) : String :=
  weekdayName d.weekday ++ ", " ++ toString d.day ++ " " ++ monthName d.month ++ ", " ++
    pad2 (d.year.toNat / 100) ++ pad2 (d.year.toNat % 100)

/-- Hour of day of a datetime. -/
def hourOf (t : NaiveDateTime) : Nat := t.secs / 3600

/-- Minute of hour of a datetime. -/
def minuteOf (t : NaiveDateTime) : Nat := t.secs % 3600 / 60

/-- strftime `%-I`: 12-hour clock without padding. -/
def hour12 (h : Nat) : Nat := if h % 12 = 0 then 12 else h % 12

/-- strftime `%p`. -/
def ampm (h : Nat) : String := if h < 12 then "AM" else "PM"

/-- strftime `%-I:%M %p` on a datetime. -/
def formatTimeShort (t : NaiveDateTime) : String :=
  toString (hour12 (hourOf t)) ++ ":" ++ pad2 (minuteOf t) ++ " " ++ ampm (hourOf t)

/-- `format_datetime` (main.rs): dates render as `%A, %-d %B, %C%y`,
datetimes as `%-I:%M %p %A, %-d %B, %C%y`. -/
def format_datetime : EventTime → String
  | .date d => formatDateLong d
  | .dateTime t => formatTimeShort t ++ " " ++ formatDateLong t.date

/-- `format_event_times` (main.rs): all-day pairs spanning exactly one day
render `<start> – All Day`; other all-day pairs render both dates with a
trailing newline; timed pairs on one calendar day render the start as
time-only; mismatched variants render a fixed fallback string. -/
def format_event_times (start endt : EventTime) : String :=
  match start, endt with
  | .date start_date, .date end_date =>
      if start_date = dateSubDays end_date 1 then
        format_datetime (EventTime.date start_date) ++ " – All Day"
      else
        format_datetime (EventTime.date start_date) ++ " – " ++
          format_datetime (EventTime.date end_date) ++ "\n"
  | .dateTime start_datetime, .dateTime end_datetime =>
      if start_datetime.date = end_datetime.date then
        formatTimeShort start_datetime ++ " – " ++
          format_datetime (EventTime.dateTime end_datetime) ++ "\n"
      else
        format_datetime (EventTime.dateTime start_datetime) ++ " – " ++
          format_datetime (EventTime.dateTime end_datetime) ++ "\n"
  | .date _, .dateTime _ => "Invalid Date: Check Calendar"
  | .dateTime _, .date _ => "Invalid Date: Check Calendar"

/-! ## Concrete payloads used by witnesses and counterexamples -/

/-- A well-formed timed VEVENT property list. -/
def propsTimed : List Property :=
  [ ⟨"SUMMARY", some "Picnic"⟩, ⟨"UID", some "u1"⟩,
    ⟨"DTSTART", some "20240617T140000Z"⟩, ⟨"DTEND", some "20240617T150000Z"⟩,
    ⟨"LAST-MODIFIED", some "20240601T000000Z"⟩ ]

/-- A calendar holding exactly the one timed event. -/
def calTimed : IcalCalendar := ⟨[⟨propsTimed⟩], [], []⟩

/-- The event `parse` builds from `calTimed` at url `url0`. -/
def evTimed : Event :=
  Event.new_timed "Picnic" "u1" ⟨⟨2024, 6, 17⟩, 50400⟩ ⟨⟨2024, 6, 17⟩, 54000⟩
    none none "url0" ⟨⟨2024, 6, 1⟩, 0⟩ none

/-- A timed VEVENT whose DTSTART (15:00) is strictly after its DTEND
(14:00). -/
def propsInverted : List Property :=
  [ ⟨"SUMMARY", some "Standup"⟩, ⟨"UID", some "u9"⟩,
    ⟨"DTSTART", some "20240617T150000Z"⟩, ⟨"DTEND", some "20240617T140000Z"⟩,
    ⟨"LAST-MODIFIED", some "20240601T000000Z"⟩ ]

/-- A calendar holding exactly the inverted timed event. -/
def calInverted : IcalCalendar := ⟨[⟨propsInverted⟩], [], []⟩

/-- A VEVENT mixing an all-day DTSTART with a timed DTEND. -/
def propsMixed : List Property :=
  [ ⟨"SUMMARY", some "Fair"⟩, ⟨"UID", some "u4"⟩,
    ⟨"DTSTART", some "20240617"⟩, ⟨"DTEND", some "20240617T150000Z"⟩,
    ⟨"LAST-MODIFIED", some "20240601T000000Z"⟩ ]

/-- A calendar holding exactly the mixed-variant event. -/
def calMixed : IcalCalendar := ⟨[⟨propsMixed⟩], [], []⟩

/-! ## Helper lemmas -/

theorem extract_calendar_data_append (a b : List XElem) :
    extract_calendar_data (a ++ b) = extract_calendar_data a ++ extract_calendar_data b := by
  simp [extract_calendar_data]

theorem extract_calendar_data_singleton (el : XElem) :
    extract_calendar_data [el] =
      if el.name = "response" ∧ el.ns = "DAV:" then propstatsOfResponse el else [] := by
  simp [extract_calendar_data]

mutual

theorem fuseElem : (el : XElem) →
    extract_calendar_data (find_elems "response" el) = amendedWalk el
  | .node _ _ _ cs => by
      simp only [find_elems, amendedWalk]
      exact fuseList cs

theorem fuseList : (l : List XElem) →
    extract_calendar_data (findElemsList "response" l) = amendedWalkList l
  | [] => by simp [findElemsList, amendedWalkList, extract_calendar_data]
  | el :: rest => by
      simp only [findElemsList, amendedWalkList, extract_calendar_data_append]
      by_cases h : el.name = "response"
      · rw [if_pos h, if_pos h, extract_calendar_data_singleton, fuseList rest]
        simp [h]
      · rw [if_neg h, if_neg h, fuseElem el, fuseList rest]

end

theorem cmpInt_self (a : Int) : cmpInt a a = Ordering.eq := by
  simp [cmpInt]

theorem cmpNat_self (a : Nat) : cmpNat a a = Ordering.eq := by
  simp [cmpNat]

theorem naiveDate_cmp_self (d : NaiveDate) : NaiveDate.cmp d d = Ordering.eq := by
  simp [NaiveDate.cmp, cmpInt_self, cmpNat_self, Ordering.then]

theorem naiveDateTime_cmp_self (t : NaiveDateTime) : NaiveDateTime.cmp t t = Ordering.eq := by
  simp [NaiveDateTime.cmp, naiveDate_cmp_self, cmpNat_self, Ordering.then]

/-! ## Claim theorems -/

/-- Claim C1 (counterexample): the extraction does not collect a
`calendar-data` element that sits at depth two below its `prop` ancestor,
although the claim's any-depth reading collects it, so the pipeline does
not collect "exactly" the elements the claim describes. -/
theorem claimC1_counterexample :
    extractPipeline exTreeC1 = [] ∧ specCalendarDataAnyDepth exTreeC1 = ["X"] := by
  exact ⟨by decide, by decide⟩

/-- Claim C1 (amended): the pipeline collects exactly the text of
`calendar-data` elements (caldav namespace) that are direct children of a
`prop` (DAV:), itself a direct child of a `propstat` (DAV:), itself a
direct child of a `response` (DAV:) element; `response` elements are found
at any depth by a walk that does not descend into elements named
`response`; results are in depth-first document order and non-matching
elements are skipped, not errors. -/
theorem claimC1_extraction_amended : ∀ root : XElem, extractPipeline root = amendedWalk root :=
  fun root => fuseElem root

/-- Claim C2: comparing `Date(D)` to `DateTime(T)` in either order is the
comparison of midnight-UTC of `D` against `T`, and `Date(D)` is equal
(under the `cmp`-derived equality) to `DateTime` of exactly midnight UTC
of `D`. -/
theorem claimC2_date_midnight : ∀ (d : NaiveDate) (t : NaiveDateTime),
    EventTime.cmp (.date d) (.dateTime t) = NaiveDateTime.cmp ⟨d, 0⟩ t ∧
    EventTime.cmp (.dateTime t) (.date d) = NaiveDateTime.cmp t ⟨d, 0⟩ ∧
    EventTime.beq (.date d) (.dateTime ⟨d, 0⟩) = true := by
  intro d t
  refine ⟨?_, ?_, ?_⟩
  · simp [EventTime.cmp, EventTime.cmpWith, NaiveDate.and_hms_opt]
  · simp [EventTime.cmp, EventTime.cmpWith, NaiveDate.and_hms_opt]
  · simp [EventTime.beq, EventTime.cmp, EventTime.cmpWith, NaiveDate.and_hms_opt,
      naiveDateTime_cmp_self]
    rfl

/-- Claim C6: `Event` ordering compares only the start times, and `Event`
equality is exactly `uid` equality; in particular two events built with the
same uid but entirely different names, times, variants and other fields
are equal. -/
theorem claimC6_event_order_eq : ∀ a b : Event,
    (Event.cmp a b = EventTime.cmp a.dtstart b.dtstart ∧
      Event.beq a b = (a.uid == b.uid)) ∧
    ∀ (n1 n2 u : String) (s1 e1 : NaiveDateTime) (s2 e2 : NaiveDate)
      (l1 l2 d1 d2 : Option String) (url1 url2 : String) (lm1 lm2 : NaiveDateTime)
      (c1 c2 : Option NaiveDateTime),
      Event.beq (Event.new_timed n1 u s1 e1 l1 d1 url1 lm1 c1)
        (Event.new_all_day n2 u s2 e2 l2 d2 url2 lm2 c2) = true := by
  intro a b
  refine ⟨⟨rfl, rfl⟩, ?_⟩
  intro n1 n2 u s1 e1 s2 e2 l1 l2 d1 d2 url1 url2 lm1 lm2 c1 c2
  simp [Event.beq, Event.new_timed, Event.new_all_day]

/-- Claim C10: in the degenerate cross-variant comparison where the date
cannot be normalized to a midnight timestamp (the normalization returns
`none`), `cmp` yields `Less` with the date on the left and `Greater` with
the timed value on the left, so the date is consistently the strictly
lesser element from both argument orders. -/
theorem claimC10_degenerate_consistent :
    ∀ (norm : NaiveDate → Option NaiveDateTime) (d : NaiveDate) (t : NaiveDateTime),
    norm d = none →
    EventTime.cmpWith norm (.date d) (.dateTime t) = Ordering.lt ∧
    EventTime.cmpWith norm (.dateTime t) (.date d) = Ordering.gt := by
  intro norm d t h
  constructor
  · simp [EventTime.cmpWith, h]
  · simp [EventTime.cmpWith, h]

/-- Witness for C10 at a concrete failing normalization and concrete
operands. -/
theorem claimC10_witness :
    EventTime.cmpWith (fun _ => none) (.date ⟨2024, 1, 1⟩) (.dateTime ⟨⟨2024, 1, 1⟩, 0⟩) =
      Ordering.lt ∧
    EventTime.cmpWith (fun _ => none) (.dateTime ⟨⟨2024, 1, 1⟩, 0⟩) (.date ⟨2024, 1, 1⟩) =
      Ordering.gt :=
  claimC10_degenerate_consistent (fun _ => none) ⟨2024, 1, 1⟩ ⟨⟨2024, 1, 1⟩, 0⟩ rfl

theorem assert_single_type_single (cal : IcalCalendar) (ev : IcalEvent)
    (h1 : cal.events = [ev]) (h2 : cal.todos = []) (h3 : cal.journals = []) :
    assert_single_type cal = .ok ev := by
  simp [assert_single_type, h1, h2, h3]

theorem parseChecked_fields (ev : IcalEvent) (url nm uid : String) (ds de : EventTime)
    (lm : NaiveDateTime)
    (hn : (scanProps ev.properties).name = some nm)
    (hu : (scanProps ev.properties).uid = some uid)
    (hs : (scanProps ev.properties).dtstart = some ds)
    (hd : (scanProps ev.properties).dtend = some de)
    (hl : (scanProps ev.properties).last_modified = some lm) :
    parseChecked ev url =
      buildEvent nm uid ds de (scanProps ev.properties).location
        (scanProps ev.properties).description url lm (scanProps ev.properties).creation_date := by
  simp [parseChecked, hn, hu, hs, hd, hl]

theorem parse_single (cal : IcalCalendar) (ev : IcalEvent) (url nm uid : String)
    (ds de : EventTime) (lm : NaiveDateTime)
    (h1 : cal.events = [ev]) (h2 : cal.todos = []) (h3 : cal.journals = [])
    (hn : (scanProps ev.properties).name = some nm)
    (hu : (scanProps ev.properties).uid = some uid)
    (hs : (scanProps ev.properties).dtstart = some ds)
    (hd : (scanProps ev.properties).dtend = some de)
    (hl : (scanProps ev.properties).last_modified = some lm) :
    parse [Except.ok cal] url =
      buildEvent nm uid ds de (scanProps ev.properties).location
        (scanProps ev.properties).description url lm (scanProps ev.properties).creation_date := by
  have hast := assert_single_type_single cal ev h1 h2 h3
  have hchk := parseChecked_fields ev url nm uid ds de lm hn hu hs hd hl
  simp only [parse, hast, hchk]
  cases hb : buildEvent nm uid ds de (scanProps ev.properties).location
      (scanProps ev.properties).description url lm (scanProps ev.properties).creation_date with
  | error e => rfl
  | ok ev0 => simp [exceptIsOk]

/-- Claim C4: with all mandatory fields present, `parse` fails with the
variant-mismatch error exactly when `dtstart` and `dtend` have different
`EventTime` variants; when both are dates it fails with the inverted-range
error exactly when the start date is strictly after the end date; and in
every remaining case it returns the constructed event. -/
theorem claimC4_variant_and_range (cal : IcalCalendar) (ev : IcalEvent)
    (url nm uid : String) (ds de : EventTime) (lm : NaiveDateTime)
    (h1 : cal.events = [ev]) (h2 : cal.todos = []) (h3 : cal.journals = [])
    (hn : (scanProps ev.properties).name = some nm)
    (hu : (scanProps ev.properties).uid = some uid)
    (hs : (scanProps ev.properties).dtstart = some ds)
    (hd : (scanProps ev.properties).dtend = some de)
    (hl : (scanProps ev.properties).last_modified = some lm) :
    parse [Except.ok cal] url =
      match ds, de with
      | .dateTime t1, .dateTime t2 =>
          Except.ok (Event.new_timed nm uid t1 t2 (scanProps ev.properties).location
            (scanProps ev.properties).description url lm
            (scanProps ev.properties).creation_date)
      | .dateTime _, .date _ =>
          Except.error ("DTEND for item " ++ url ++ " is a date, but DTSTART is a datetime")
      | .date _, .dateTime _ =>
          Except.error ("DTSTART for item " ++ url ++ " is a date, but DTEND is a datetime")
      | .date d1, .date d2 =>
          if NaiveDate.cmp d1 d2 = Ordering.gt then
            Except.error ("DTSTART for item " ++ url ++ " is after DTEND")
          else
            Except.ok (Event.new_all_day nm uid d1 d2 (scanProps ev.properties).location
              (scanProps ev.properties).description url lm
              (scanProps ev.properties).creation_date) := by
  rw [parse_single cal ev url nm uid ds de lm h1 h2 h3 hn hu hs hd hl]
  cases ds <;> cases de <;> simp [buildEvent, EventTime.as_date]

/-- Witness for C4 at a concrete payload whose DTSTART is an all-day date
and whose DTEND is a timestamp. -/
theorem claimC4_witness :
    parse [Except.ok calMixed] "u4" =
      Except.error ("DTSTART for item " ++ "u4" ++ " is a date, but DTEND is a datetime") :=
  claimC4_variant_and_range calMixed ⟨propsMixed⟩ "u4" "Fair" "u4"
    (.date ⟨2024, 6, 17⟩) (.dateTime ⟨⟨2024, 6, 17⟩, 54000⟩) ⟨⟨2024, 6, 1⟩, 0⟩
    rfl rfl rfl rfl rfl rfl rfl rfl

/-- Claim C9: for timed events no start/end range validation happens: a
payload whose timed DTSTART is strictly after its timed DTEND (all
mandatory fields present) parses successfully and returns the event. -/
theorem claimC9_no_timed_range_check (cal : IcalCalendar) (ev : IcalEvent)
    (url nm uid : String) (t1 t2 : NaiveDateTime) (lm : NaiveDateTime)
    (h1 : cal.events = [ev]) (h2 : cal.todos = []) (h3 : cal.journals = [])
    (hn : (scanProps ev.properties).name = some nm)
    (hu : (scanProps ev.properties).uid = some uid)
    (hs : (scanProps ev.properties).dtstart = some (.dateTime t1))
    (hd : (scanProps ev.properties).dtend = some (.dateTime t2))
    (hl : (scanProps ev.properties).last_modified = some lm)
    (hgt : NaiveDateTime.cmp t1 t2 = Ordering.gt) :
    parse [Except.ok cal] url =
      Except.ok (Event.new_timed nm uid t1 t2 (scanProps ev.properties).location
        (scanProps ev.properties).description url lm
        (scanProps ev.properties).creation_date) := by
  rw [parse_single cal ev url nm uid (.dateTime t1) (.dateTime t2) lm h1 h2 h3 hn hu hs hd hl]
  simp [buildEvent]

/-- Witness for C9: a payload with DTSTART 15:00 and DTEND 14:00 on the
same day parses successfully. -/
theorem claimC9_witness :
    parse [Except.ok calInverted] "u9" =
      Except.ok (Event.new_timed "Standup" "u9" ⟨⟨2024, 6, 17⟩, 54000⟩ ⟨⟨2024, 6, 17⟩, 50400⟩
        none none "u9" ⟨⟨2024, 6, 1⟩, 0⟩ none) :=
  claimC9_no_timed_range_check calInverted ⟨propsInverted⟩ "u9" "Standup" "u9"
    ⟨⟨2024, 6, 17⟩, 54000⟩ ⟨⟨2024, 6, 17⟩, 50400⟩ ⟨⟨2024, 6, 1⟩, 0⟩
    rfl rfl rfl rfl rfl rfl rfl rfl rfl

/-- Claim C3 (counterexample): a second top-level item that is present but
fails to decode does not make `parse` fail — the payload parses
successfully, contradicting the claim's "regardless of whether the later
items themselves decode successfully". -/
theorem claimC3_counterexample :
    parse [Except.ok calTimed, Except.error "oops"] "url0" = Except.ok evTimed :=
  rfl

/-- Claim C3 (amended): `parse` fails with the distinct multiple-items
error exactly when the item after the first exists and decodes
successfully (given the first item validated); a second item that fails to
decode is ignored and the result is as for the first item alone; and when
no calendar item decodes at all (empty stream, or a first item that fails
to decode) `parse` fails with a distinct Malformed-style error. -/
theorem claimC3_multiplicity_amended : ∀ url : String,
    (parse [] url = Except.error ("Invalid iCal data to parse for item " ++ url)) ∧
    (∀ (e : String) (rest : List (Except String IcalCalendar)),
      parse (Except.error e :: rest) url =
        Except.error ("Unable to parse iCal data for item " ++ url ++ ": " ++ e)) ∧
    (∀ (cal : IcalCalendar) (rest : List (Except String IcalCalendar)),
      (rest.head?.map exceptIsOk == some true) = false →
      parse (Except.ok cal :: rest) url = parse [Except.ok cal] url) ∧
    (∀ (cal : IcalCalendar) (rest : List (Except String IcalCalendar)) (ev : Event),
      rest.head?.map exceptIsOk = some true →
      parse [Except.ok cal] url = Except.ok ev →
      parse (Except.ok cal :: rest) url =
        Except.error "Parsing multiple items are not supported") := by
  intro url
  refine ⟨rfl, fun e rest => rfl, ?_, ?_⟩
  · intro cal rest hres
    cases hast : assert_single_type cal with
    | error e => simp [parse, hast]
    | ok event =>
        cases hchk : parseChecked event url with
        | error e => simp [parse, hast, hchk]
        | ok ev0 => simp [parse, hast, hchk, hres]
  · intro cal rest ev h2 hok
    cases hast : assert_single_type cal with
    | error e => simp [parse, hast] at hok
    | ok event =>
        cases hchk : parseChecked event url with
        | error e => simp [parse, hast, hchk] at hok
        | ok ev0 => simp [parse, hast, hchk, h2]

/-- Witness for C3 (amended): two successfully decoding items are rejected
with the multiple-items error. -/
theorem claimC3_witness :
    parse [Except.ok calTimed, Except.ok calTimed] "url0" =
      Except.error "Parsing multiple items are not supported" :=
  (claimC3_multiplicity_amended "url0").2.2.2 calTimed [Except.ok calTimed] evTimed rfl rfl

theorem buildEvent_ok_variant (nm uid : String) (ds de : EventTime)
    (l d : Option String) (url : String) (lm : NaiveDateTime)
    (cd : Option NaiveDateTime) (ev : Event)
    (h : buildEvent nm uid ds de l d url lm cd = .ok ev) :
    sameVariant ev.dtstart ev.dtend = true := by
  cases ds <;> cases de
  · simp only [buildEvent, EventTime.as_date] at h
    split at h
    · cases h
    · cases h
      rfl
  · simp [buildEvent] at h
  · simp [buildEvent] at h
  · simp only [buildEvent] at h
    cases h
    rfl

theorem parseChecked_ok_variant (event : IcalEvent) (url : String) (ev : Event)
    (h : parseChecked event url = .ok ev) :
    sameVariant ev.dtstart ev.dtend = true := by
  simp only [parseChecked] at h
  split at h
  · cases h
  · split at h
    · cases h
    · split at h
      · cases h
      · split at h
        · cases h
        · split at h
          · cases h
          · exact buildEvent_ok_variant _ _ _ _ _ _ _ _ _ _ h

theorem parse_ok_variant (items : List (Except String IcalCalendar)) (url : String)
    (ev : Event) (h : parse items url = .ok ev) :
    sameVariant ev.dtstart ev.dtend = true := by
  match items with
  | [] => cases h
  | .error e :: rest => cases h
  | .ok cal :: rest =>
      cases hast : assert_single_type cal with
      | error e => simp [parse, hast] at h
      | ok event =>
          cases hchk : parseChecked event url with
          | error e => simp [parse, hast, hchk] at h
          | ok ev0 =>
              simp only [parse, hast, hchk] at h
              split at h
              · cases h
              · cases h
                exact parseChecked_ok_variant event url _ hchk

/-- Claim C8: both constructors produce an `Event` whose start and end use
the same `EventTime` variant (`new_timed` two timestamps, `new_all_day`
two dates), and every event `parse` returns — the only code path that
builds events — satisfies the same-variant invariant. -/
theorem claimC8_variant_invariant :
    (∀ (nm uid : String) (s e : NaiveDateTime) (l d : Option String) (url : String)
      (lm : NaiveDateTime) (cd : Option NaiveDateTime),
      sameVariant (Event.new_timed nm uid s e l d url lm cd).dtstart
        (Event.new_timed nm uid s e l d url lm cd).dtend = true) ∧
    (∀ (nm uid : String) (s e : NaiveDate) (l d : Option String) (url : String)
      (lm : NaiveDateTime) (cd : Option NaiveDateTime),
      sameVariant (Event.new_all_day nm uid s e l d url lm cd).dtstart
        (Event.new_all_day nm uid s e l d url lm cd).dtend = true) ∧
    (∀ (items : List (Except String IcalCalendar)) (url : String) (ev : Event),
      parse items url = Except.ok ev → sameVariant ev.dtstart ev.dtend = true) := by
  refine ⟨fun nm uid s e l d url lm cd => rfl, fun nm uid s e l d url lm cd => rfl, ?_⟩
  exact parse_ok_variant

/-- Witness for C8 at a concrete successful parse. -/
theorem claimC8_witness : sameVariant evTimed.dtstart evTimed.dtend = true :=
  claimC8_variant_invariant.2.2 [Except.ok calTimed] "url0" evTimed rfl

/-- Claim C5: DTSTART/DTEND property values are tried against the three
formats in order — UTC timestamp `YYYYMMDDThhmmssZ`, then local timestamp
`YYYYMMDDThhmmss` treated as UTC (both yielding timed values), then bare
date `YYYYMMDD` yielding a `Date` — and a value matching none of the three
is dropped, leaving the property in the same state as a missing one. -/
theorem claimC5_time_format_order : ∀ s : String,
    (∀ t, parseFmtZ s = some t →
      parse_event_time_from_property (some s) = some (.dateTime t)) ∧
    (∀ t, parseFmtZ s = none → parseFmtLocal s = some t →
      parse_event_time_from_property (some s) = some (.dateTime t)) ∧
    (∀ d, parseFmtZ s = none → parseFmtLocal s = none → parseFmtDate s = some d →
      parse_event_time_from_property (some s) = some (.date d)) ∧
    (parseFmtZ s = none → parseFmtLocal s = none → parseFmtDate s = none →
      parse_event_time_from_property (some s) = none) ∧
    parse_event_time_from_property none = none ∧
    (∀ sc : Scanned,
      (scanStep sc ⟨"DTSTART", some s⟩).dtstart = parse_event_time_from_property (some s) ∧
      (scanStep sc ⟨"DTSTART", none⟩).dtstart = none) := by
  intro s
  refine ⟨?_, ?_, ?_, ?_, rfl, ?_⟩
  · intro t h1
    simp [parse_event_time_from_property, parse_event_time, h1]
  · intro t h1 h2
    simp [parse_event_time_from_property, parse_event_time, h1, h2]
  · intro d h1 h2 h3
    simp [parse_event_time_from_property, parse_event_time, h1, h2, h3]
  · intro h1 h2 h3
    simp [parse_event_time_from_property, parse_event_time, h1, h2, h3]
  · intro sc
    exact ⟨rfl, rfl⟩

/-- Witness for C5 at a bare-date value, discharging the first two formats
failing and the date format succeeding. -/
theorem claimC5_witness :
    parse_event_time_from_property (some "20240617") = some (.date ⟨2024, 6, 17⟩) :=
  (claimC5_time_format_order "20240617").2.2.1 ⟨2024, 6, 17⟩ rfl rfl rfl

/-- Claim C7: an all-day event whose end date is its start date plus one
day renders as the formatted start date followed by an All Day marker
(concretely, 2024-06-17 to 2024-06-18 renders as
"Monday, 17 June, 2024 – All Day" with weekday, day, month name and
four-digit year), and any other all-day pair renders both formatted
dates. -/
theorem claimC7_all_day_rendering :
    (∀ d1 d2 : NaiveDate, d1 = dateSubDays d2 1 →
      format_event_times (.date d1) (.date d2) =
        format_datetime (.date d1) ++ " – All Day") ∧
    (∀ d1 d2 : NaiveDate, d1 ≠ dateSubDays d2 1 →
      format_event_times (.date d1) (.date d2) =
        format_datetime (.date d1) ++ " – " ++ format_datetime (.date d2) ++ "\n") ∧
    format_event_times (.date ⟨2024, 6, 17⟩) (.date ⟨2024, 6, 18⟩) =
      "Monday, 17 June, 2024 – All Day" := by
  refine ⟨?_, ?_, by decide⟩
  · intro d1 d2 h
    simp only [format_event_times]
    rw [if_pos h]
  · intro d1 d2 h
    simp only [format_event_times]
    rw [if_neg h]

/-- Witness for C7 at the concrete one-day span 2024-06-17 – 2024-06-18. -/
theorem claimC7_witness :
    format_event_times (.date ⟨2024, 6, 17⟩) (.date ⟨2024, 6, 18⟩) =
      format_datetime (.date ⟨2024, 6, 17⟩) ++ " – All Day" :=
  claimC7_all_day_rendering.1 ⟨2024, 6, 17⟩ ⟨2024, 6, 18⟩ (by decide)
